import Mathlib

/-!
Shallow embedding of `src/index.py` (class `DietNutritionAnalyzer`), a dish
nutrition analyzer. Python dicts for nutrition data become association lists
`List (String × ℚ)` with `List.lookup` (a missing key, Python's `KeyError`,
becomes `none`). Python floats become `ℚ`; the correlation analysis, which
involves square roots, is embedded over `ℝ`. Python's `sorted(..., reverse=True)`
is a stable sort and becomes `List.mergeSort` with the reversed comparison.
-/

namespace DietNutritionAnalyzer

/-- An ingredient record: a name plus its own five nutrition fields
(kept as an association list like the Python dict). -/
structure Ingredient where
  name : String
  nutrition : List (String × ℚ)
deriving Repr, DecidableEq

/-- A raw dish record as loaded from the input data, before scoring. -/
structure Dish where
  name : String
  category : String
  popularity_score : ℚ
  total_nutrition : List (String × ℚ)
  ingredients : List Ingredient
deriving Repr, DecidableEq

/-- Function `calculate_cd_ndi` from `src/index.py` lines 14-24: looks up the five
required nutrition fields (failing, like Python's `KeyError`, when one is
absent) and combines them with the fixed linear weights. -/
def calculate_cd_ndi (nutrition_dict : List (String × ℚ)) : Option ℚ := do
  let protein ← nutrition_dict.lookup "protein"
  let fiber ← nutrition_dict.lookup "dietaryFiber"
  let sat_fat ← nutrition_dict.lookup "saturatedFat"
  let sodium ← nutrition_dict.lookup "sodium"
  let added_sugar ← nutrition_dict.lookup "addedSugar"
  return (protein * 2.5 + fiber * 1.8) - (sat_fat * 3.5 + sodium * 0.01 + added_sugar * 2.5)

/-- A dish after `calculate_dish_scores` has attached the four derived
fields (the Python code stores them as extra keys on the dish dict). -/
structure ScoredDish where
  dish : Dish
  cd_ndi : ℚ
  nutrition_score : ℚ
  normalized_popularity : ℚ
  match_score : ℚ
deriving Repr, DecidableEq

/-- The body of the per-dish loop of `calculate_dish_scores`
(`src/index.py` lines 55-73): attach `cd_ndi`, `nutrition_score`,
`normalized_popularity` and `match_score` to one dish. -/
def scoreDish (dish : Dish) : Option ScoredDish := do
  let cd_ndi ← calculate_cd_ndi dish.total_nutrition
  let nutrition_score := cd_ndi
  let normalized_popularity := dish.popularity_score / 10.0
  return { dish := dish
           cd_ndi := cd_ndi
           nutrition_score := nutrition_score
           normalized_popularity := normalized_popularity
           match_score := 0.6 * (nutrition_score / 100) + 0.4 * normalized_popularity }

/-- Function `calculate_dish_scores` from `src/index.py` lines 53-73: score every
dish of the catalog; a `KeyError` on any dish aborts the whole run. -/
def calculate_dish_scores : List Dish → Option (List ScoredDish)
  | [] => some []
  | d :: rest => do
    let s ← scoreDish d
    let srest ← calculate_dish_scores rest
    return s :: srest

end DietNutritionAnalyzer

namespace DietNutritionAnalyzer

/-- The five lookups all succeeding, spelled out. -/
def hasAllFields (nutrition_dict : List (String × ℚ)) : Prop :=
  (nutrition_dict.lookup "protein").isSome ∧
  (nutrition_dict.lookup "dietaryFiber").isSome ∧
  (nutrition_dict.lookup "saturatedFat").isSome ∧
  (nutrition_dict.lookup "sodium").isSome ∧
  (nutrition_dict.lookup "addedSugar").isSome

instance (nutrition_dict : List (String × ℚ)) : Decidable (hasAllFields nutrition_dict) := by
  unfold hasAllFields; infer_instance

theorem calculate_cd_ndi_eq (nd : List (String × ℚ)) (p f sf na su : ℚ)
    (hp : nd.lookup "protein" = some p) (hf : nd.lookup "dietaryFiber" = some f)
    (hsf : nd.lookup "saturatedFat" = some sf) (hna : nd.lookup "sodium" = some na)
    (hsu : nd.lookup "addedSugar" = some su) :
    calculate_cd_ndi nd =
      some ((p * 2.5 + f * 1.8) - (sf * 3.5 + na * 0.01 + su * 2.5)) := by
  simp [calculate_cd_ndi, hp, hf, hsf, hna, hsu]

end DietNutritionAnalyzer

open DietNutritionAnalyzer

/-- C1: for every dish whose `total_nutrition` contains the five required
fields, the scored dish produced during construction has
`cd_ndi = (protein*2.5 + dietaryFiber*1.8) - (saturatedFat*3.5 + sodium*0.01 + addedSugar*2.5)`
computed from `total_nutrition`, and `nutrition_score` equal to `cd_ndi`. -/
theorem C1_cd_ndi_formula (d : Dish) (p f sf na su : ℚ)
    (hp : d.total_nutrition.lookup "protein" = some p)
    (hf : d.total_nutrition.lookup "dietaryFiber" = some f)
    (hsf : d.total_nutrition.lookup "saturatedFat" = some sf)
    (hna : d.total_nutrition.lookup "sodium" = some na)
    (hsu : d.total_nutrition.lookup "addedSugar" = some su) :
    ∃ s : ScoredDish, scoreDish d = some s ∧
      s.cd_ndi = (p * 2.5 + f * 1.8) - (sf * 3.5 + na * 0.01 + su * 2.5) ∧
      s.nutrition_score = s.cd_ndi := by
  have hcd := calculate_cd_ndi_eq d.total_nutrition p f sf na su hp hf hsf hna hsu
  refine ⟨⟨d, (p * 2.5 + f * 1.8) - (sf * 3.5 + na * 0.01 + su * 2.5),
          (p * 2.5 + f * 1.8) - (sf * 3.5 + na * 0.01 + su * 2.5),
          d.popularity_score / 10.0,
          0.6 * (((p * 2.5 + f * 1.8) - (sf * 3.5 + na * 0.01 + su * 2.5)) / 100)
            + 0.4 * (d.popularity_score / 10.0)⟩, ?_, rfl, rfl⟩
  simp [scoreDish, hcd]

/-- Witness for C1: the spec §8 example dish
(protein 20, fiber 5, saturated fat 2, sodium 300, added sugar 1) scores
`cd_ndi = 46.5`. -/
theorem C1_cd_ndi_formula_witness :
    ∃ s : ScoredDish,
      scoreDish
        { name := "示例菜", category := "主食类", popularity_score := 8,
          total_nutrition :=
            [("protein", 20), ("dietaryFiber", 5), ("saturatedFat", 2),
             ("sodium", 300), ("addedSugar", 1)],
          ingredients := [] } = some s ∧
      s.cd_ndi = (20 * 2.5 + 5 * 1.8) - (2 * 3.5 + 300 * 0.01 + 1 * 2.5) ∧
      s.nutrition_score = s.cd_ndi :=
  C1_cd_ndi_formula _ 20 5 2 300 1 (by decide) (by decide) (by decide) (by decide) (by decide)

/-- C2: for every scored dish produced during construction,
`normalized_popularity = popularity_score / 10.0` exactly and
`match_score = 0.6 * (nutrition_score / 100) + 0.4 * normalized_popularity`. -/
theorem C2_match_score_formula (d : Dish) (s : ScoredDish)
    (h : scoreDish d = some s) :
    s.normalized_popularity = d.popularity_score / 10.0 ∧
    s.match_score = 0.6 * (s.nutrition_score / 100) + 0.4 * s.normalized_popularity := by
  unfold scoreDish at h
  cases hcd : calculate_cd_ndi d.total_nutrition with
  | none => simp [hcd] at h
  | some cd =>
    simp [hcd] at h
    subst h
    exact ⟨rfl, rfl⟩

/-- Witness for C2: evaluated on the spec §8 example dish, whose
`match_score` is `0.599`. -/
theorem C2_match_score_formula_witness :
    ∃ s : ScoredDish,
      scoreDish
        { name := "示例菜", category := "主食类", popularity_score := 8,
          total_nutrition :=
            [("protein", 20), ("dietaryFiber", 5), ("saturatedFat", 2),
             ("sodium", 300), ("addedSugar", 1)],
          ingredients := [] } = some s ∧
      s.normalized_popularity = 8 / 10.0 ∧
      s.match_score = 0.6 * (s.nutrition_score / 100) + 0.4 * s.normalized_popularity := by
  refine ⟨_, rfl, ?_⟩
  have h := C2_match_score_formula
    { name := "示例菜", category := "主食类", popularity_score := 8,
      total_nutrition :=
        [("protein", 20), ("dietaryFiber", 5), ("saturatedFat", 2),
         ("sodium", 300), ("addedSugar", 1)],
      ingredients := [] } _ rfl
  exact h

namespace DietNutritionAnalyzer

/-- The local `dishes_sorted` of `find_optimal_combination`
(`src/index.py` line 86): Python's stable `sorted(..., key=match_score,
reverse=True)` becomes `mergeSort` with the reversed comparison. -/
def dishes_sorted (dishes : List ScoredDish) : List ScoredDish :=
  dishes.mergeSort (fun x y => decide (y.match_score ≤ x.match_score))

/-- Function `find_optimal_combination` from `src/index.py` lines 83-91: sort by
`match_score` descending and keep the first 5; the `daily_calorie_limit`
parameter is accepted but never read. -/
def find_optimal_combination (dishes : List ScoredDish)
    (daily_calorie_limit : ℚ) : List ScoredDish :=
  (dishes_sorted dishes).take 5

theorem matchDesc_trans (a b c : ScoredDish)
    (hab : decide (b.match_score ≤ a.match_score) = true)
    (hbc : decide (c.match_score ≤ b.match_score) = true) :
    decide (c.match_score ≤ a.match_score) = true := by
  simp only [decide_eq_true_eq] at *
  exact le_trans hbc hab

theorem matchDesc_total (a b : ScoredDish) :
    (decide (b.match_score ≤ a.match_score) ||
      decide (a.match_score ≤ b.match_score)) = true := by
  simpa using le_total b.match_score a.match_score

/-- Stability of a stable sort, phrased through filters: the subsequence of
elements that agree on the sort key is untouched by the sort. -/
theorem filter_mergeSort_eq_filter {α : Type} (le : α → α → Bool)
    (trans : ∀ a b c : α, le a b → le b c → le a c)
    (total : ∀ a b : α, (le a b || le b a) = true)
    (l : List α) (p : α → Bool)
    (hp : ∀ a b : α, p a = true → p b = true → le a b = true) :
    (l.mergeSort le).filter p = l.filter p := by
  have h1 : List.Sublist (l.filter p) l := List.filter_sublist l
  have hpw : (l.filter p).Pairwise (fun a b => le a b = true) :=
    List.pairwise_of_forall_mem_list fun a ha b hb =>
      hp a b (List.of_mem_filter ha) (List.of_mem_filter hb)
  have h2 : List.Sublist (l.filter p) (l.mergeSort le) :=
    List.sublist_mergeSort trans total hpw h1
  have h3 : List.Perm ((l.mergeSort le).filter p) (l.filter p) :=
    (List.mergeSort_perm l le).filter p
  have h4 : List.Sublist (l.filter p) ((l.mergeSort le).filter p) := by
    have h5 := h2.filter p
    have h6 : (l.filter p).filter p = l.filter p := by
      simp [List.filter_filter]
    rwa [h6] at h5
  exact (h4.eq_of_length h3.length_eq.symm).symm

end DietNutritionAnalyzer

/-- C3: on every catalog, `find_optimal_combination` returns exactly
`min 5 catalog_size` dishes (the limit is the hard-coded 5 of line 89),
in `match_score`-descending order; the sort underlying it is stable: for
any value `s` of the key, dishes with `match_score = s` appear in the
sorted list exactly in their original catalog order. -/
theorem C3_top_n_selection (dishes : List ScoredDish) (cal : ℚ) :
    (find_optimal_combination dishes cal).length = min 5 dishes.length ∧
    (find_optimal_combination dishes cal).Pairwise
      (fun a b => b.match_score ≤ a.match_score) ∧
    find_optimal_combination dishes cal = (dishes_sorted dishes).take 5 ∧
    (∀ s : ℚ, (dishes_sorted dishes).filter (fun d => decide (d.match_score = s)) =
      dishes.filter (fun d => decide (d.match_score = s))) := by
  refine ⟨?_, ?_, rfl, ?_⟩
  · simp [find_optimal_combination, dishes_sorted]
  · have hs := List.sorted_mergeSort matchDesc_trans matchDesc_total dishes
    have hp : (dishes_sorted dishes).Pairwise
        (fun a b => b.match_score ≤ a.match_score) :=
      hs.imp fun h => of_decide_eq_true h
    exact hp.sublist (List.take_sublist 5 _)
  · intro s
    refine filter_mergeSort_eq_filter _ matchDesc_trans matchDesc_total dishes _ ?_
    intro a b ha hb
    have ha' := of_decide_eq_true ha
    have hb' := of_decide_eq_true hb
    simp [ha', hb']

/-- C4: the `daily_calorie_limit` argument of `find_optimal_combination`
has no effect on the result. -/
theorem C4_calorie_limit_unused (dishes : List ScoredDish) (c1 c2 : ℚ) :
    find_optimal_combination dishes c1 = find_optimal_combination dishes c2 := rfl

namespace DietNutritionAnalyzer

/-- The stream of ingredient names the loop of `analyze_ingredient_frequency`
(`src/index.py` lines 96-99) visits: every dish's ingredients, in catalog order. -/
def ingredientNames (dishes : List ScoredDish) : List String :=
  dishes.flatMap (fun d => d.dish.ingredients.map (fun ing => ing.name))

/-- One step of the counting loop:
`ingredient_count[name] = ingredient_count.get(name, 0) + 1` on a Python
dict, which keeps keys in insertion order — so an existing key is bumped
in place and a new key is appended at the end. -/
def bump : List (String × Nat) → String → List (String × Nat)
  | [], name => [(name, 1)]
  | (k, v) :: rest, name =>
    if k = name then (k, v + 1) :: rest else (k, v) :: bump rest name

/-- The `ingredient_count` dict of `src/index.py` lines 95-99, as an
insertion-ordered association list. -/
def ingredient_count (dishes : List ScoredDish) : List (String × Nat) :=
  (ingredientNames dishes).foldl bump []

/-- Function `analyze_ingredient_frequency` from `src/index.py` lines 93-103:
`sorted(ingredient_count.items(), key=count, reverse=True)`. -/
def analyze_ingredient_frequency (dishes : List ScoredDish) : List (String × Nat) :=
  (ingredient_count dishes).mergeSort (fun x y => decide (y.2 ≤ x.2))

/-- The list of distinct names in order of first appearance: what the spec
means by "ties broken by insertion order of first appearance". -/
def firstAppear : List String → List String
  | [] => []
  | n :: rest => n :: firstAppear (rest.filter (fun x => decide (x ≠ n)))
termination_by l => l.length
decreasing_by
  simp only [List.length_cons]
  exact Nat.lt_succ_of_le (List.length_filter_le _ _)

theorem bump_keys (acc : List (String × Nat)) (n : String) :
    (bump acc n).map Prod.fst =
      if n ∈ acc.map Prod.fst then acc.map Prod.fst else acc.map Prod.fst ++ [n] := by
  induction acc with
  | nil => simp [bump]
  | cons hd tl ih =>
    obtain ⟨k, v⟩ := hd
    by_cases hk : k = n
    · subst hk
      simp [bump]
    · have hnk : ¬ n = k := fun h => hk h.symm
      by_cases hn : n ∈ tl.map Prod.fst
      · simp [bump, hk, ih, hn, hnk]
      · simp [bump, hk, ih, hn, hnk]

theorem bump_sum (acc : List (String × Nat)) (n : String) :
    ((bump acc n).map Prod.snd).sum = ((acc.map Prod.snd)).sum + 1 := by
  induction acc with
  | nil => simp [bump]
  | cons hd tl ih =>
    obtain ⟨k, v⟩ := hd
    by_cases hk : k = n
    · subst hk; simp [bump]; omega
    · simp [bump, hk, ih]; omega

theorem bump_lookup (acc : List (String × Nat)) (n m : String) :
    (bump acc n).lookup m =
      if m = n then some (((acc.lookup m).getD 0) + 1) else acc.lookup m := by
  induction acc with
  | nil =>
    by_cases h : m = n
    · subst h; simp [bump, List.lookup_cons]
    · have hb : (m == n) = false := beq_eq_false_iff_ne.mpr h
      simp [bump, List.lookup_cons, hb, h]
  | cons hd tl ih =>
    obtain ⟨k, v⟩ := hd
    by_cases hk : k = n
    · subst hk
      by_cases hm : m = k
      · subst hm; simp [bump, List.lookup_cons]
      · have hb : (m == k) = false := beq_eq_false_iff_ne.mpr hm
        simp [bump, List.lookup_cons, hb, hm]
    · by_cases hm : m = k
      · subst hm
        have hmn : ¬ m = n := hk
        simp [bump, hk, List.lookup_cons, hmn]
      · have hb : (m == k) = false := beq_eq_false_iff_ne.mpr hm
        simp [bump, hk, List.lookup_cons, hb, ih]

end DietNutritionAnalyzer

namespace DietNutritionAnalyzer

theorem firstAppear_nil : firstAppear [] = [] := by rw [firstAppear]

theorem firstAppear_cons (n : String) (rest : List String) :
    firstAppear (n :: rest) = n :: firstAppear (rest.filter (fun x => decide (x ≠ n))) := by
  rw [firstAppear]

theorem foldl_bump_sum (l : List String) : ∀ acc : List (String × Nat),
    ((l.foldl bump acc).map Prod.snd).sum = ((acc.map Prod.snd)).sum + l.length := by
  induction l with
  | nil => intro acc; simp
  | cons m rest ih =>
    intro acc
    simp only [List.foldl_cons, List.length_cons]
    rw [ih (bump acc m), bump_sum]
    omega

theorem foldl_bump_lookup_getD (l : List String) :
    ∀ (acc : List (String × Nat)) (n : String),
    ((l.foldl bump acc).lookup n).getD 0 = (acc.lookup n).getD 0 + l.count n := by
  induction l with
  | nil => intro acc n; simp
  | cons m rest ih =>
    intro acc n
    simp only [List.foldl_cons]
    rw [ih (bump acc m) n, bump_lookup]
    by_cases h : n = m
    · subst h
      simp [List.count_cons]
      omega
    · have hb : (n == m) = false := beq_eq_false_iff_ne.mpr h
      simp [h, List.count_cons, hb]

theorem foldl_bump_lookup_isSome (l : List String) :
    ∀ (acc : List (String × Nat)) (n : String),
    ((l.foldl bump acc).lookup n).isSome = ((acc.lookup n).isSome || decide (n ∈ l)) := by
  induction l with
  | nil => intro acc n; simp
  | cons m rest ih =>
    intro acc n
    simp only [List.foldl_cons]
    rw [ih (bump acc m) n, bump_lookup]
    by_cases h : n = m
    · subst h; simp
    · simp [h]

theorem foldl_bump_keys (l : List String) : ∀ acc : List (String × Nat),
    (l.foldl bump acc).map Prod.fst =
      acc.map Prod.fst ++
        firstAppear (l.filter (fun x => decide (x ∉ acc.map Prod.fst))) := by
  induction l with
  | nil => intro acc; simp [firstAppear_nil]
  | cons m rest ih =>
    intro acc
    simp only [List.foldl_cons]
    rw [ih (bump acc m), bump_keys]
    by_cases hm : m ∈ acc.map Prod.fst
    · rw [if_pos hm]
      have hfil : (m :: rest).filter (fun x => decide (x ∉ acc.map Prod.fst)) =
          rest.filter (fun x => decide (x ∉ acc.map Prod.fst)) := by
        simp [List.filter_cons, hm]
      rw [hfil]
    · rw [if_neg hm]
      have hfil : (m :: rest).filter (fun x => decide (x ∉ acc.map Prod.fst)) =
          m :: rest.filter (fun x => decide (x ∉ acc.map Prod.fst)) := by
        simp [List.filter_cons, hm]
      rw [hfil, firstAppear_cons, List.filter_filter]
      rw [List.append_assoc, List.singleton_append]
      have hpred : ∀ x ∈ rest,
          (decide (x ∉ acc.map Prod.fst ++ [m])) =
            (decide (x ≠ m) && decide (x ∉ acc.map Prod.fst)) := by
        intro x _
        by_cases h1 : x = m
        · subst h1; simp
        · by_cases h2 : x ∈ acc.map Prod.fst
          · simp [h1, h2]
          · simp [h1, h2]
      rw [List.filter_congr hpred]

theorem mem_of_mem_firstAppear (l : List String) : ∀ x ∈ firstAppear l, x ∈ l := by
  induction l using firstAppear.induct with
  | case1 => simp [firstAppear_nil]
  | case2 n rest ih =>
    intro x hx
    rw [firstAppear_cons] at hx
    rcases List.mem_cons.mp hx with h | h
    · simp [h]
    · exact List.mem_cons_of_mem _ (List.mem_of_mem_filter (ih x h))

theorem firstAppear_nodup (l : List String) : (firstAppear l).Nodup := by
  induction l using firstAppear.induct with
  | case1 => simp [firstAppear_nil]
  | case2 n rest ih =>
    rw [firstAppear_cons]
    refine List.nodup_cons.mpr ⟨?_, ih⟩
    intro hmem
    have h1 := mem_of_mem_firstAppear _ _ hmem
    have h2 := List.of_mem_filter h1
    simp at h2

theorem lookup_eq_some_of_mem : ∀ (l : List (String × Nat)),
    (l.map Prod.fst).Nodup → ∀ (k : String) (v : Nat), (k, v) ∈ l → l.lookup k = some v := by
  intro l
  induction l with
  | nil => intro _ k v h; simp at h
  | cons hd tl ih =>
    obtain ⟨k0, v0⟩ := hd
    intro hnd k v hmem
    rcases List.mem_cons.mp hmem with h | h
    · obtain ⟨h1, h2⟩ := Prod.mk.injEq .. ▸ h
      subst h1; subst h2
      simp [List.lookup_cons]
    · have hk0 : k ∈ tl.map Prod.fst := List.mem_map_of_mem Prod.fst h
      have hnd' : k0 ∉ tl.map Prod.fst ∧ (tl.map Prod.fst).Nodup := by
        rw [List.map_cons, List.nodup_cons] at hnd
        exact hnd
      have hne : ¬ k = k0 := by
        intro he; subst he
        exact hnd'.1 hk0
      have hb : (k == k0) = false := beq_eq_false_iff_ne.mpr hne
      rw [List.lookup_cons]
      simp only [hb]
      exact ih hnd'.2 k v h

theorem countDesc_trans (a b c : String × Nat)
    (hab : decide (b.2 ≤ a.2) = true) (hbc : decide (c.2 ≤ b.2) = true) :
    decide (c.2 ≤ a.2) = true := by
  simp only [decide_eq_true_eq] at *
  omega

theorem countDesc_total (a b : String × Nat) :
    (decide (b.2 ≤ a.2) || decide (a.2 ≤ b.2)) = true := by
  simpa using Nat.le_total b.2 a.2

end DietNutritionAnalyzer

/-- C5: `analyze_ingredient_frequency` returns (name, count) pairs where
each count is the number of ingredient entries bearing that name across
all dishes (per-occurrence, not per-dish); the counts sum to the total
number of ingredient entries; the pairs are sorted by count descending;
and ties stay in the dict's insertion order, which is the order of each
name's first appearance (`ingredient_count`'s key order is exactly
`firstAppear` of the occurrence stream). -/
theorem C5_ingredient_frequency (dishes : List ScoredDish) :
    (∀ pr ∈ analyze_ingredient_frequency dishes,
        pr.2 = (ingredientNames dishes).count pr.1) ∧
    ((analyze_ingredient_frequency dishes).map Prod.snd).sum
        = (ingredientNames dishes).length ∧
    (analyze_ingredient_frequency dishes).Pairwise (fun a b => b.2 ≤ a.2) ∧
    (ingredient_count dishes).map Prod.fst = firstAppear (ingredientNames dishes) ∧
    (∀ k : Nat, (analyze_ingredient_frequency dishes).filter (fun pr => decide (pr.2 = k))
        = (ingredient_count dishes).filter (fun pr => decide (pr.2 = k))) := by
  have hkeys : (ingredient_count dishes).map Prod.fst
      = firstAppear (ingredientNames dishes) := by
    have h := foldl_bump_keys (ingredientNames dishes) []
    simpa [ingredient_count] using h
  have hnd : ((ingredient_count dishes).map Prod.fst).Nodup := by
    rw [hkeys]; exact firstAppear_nodup _
  refine ⟨?_, ?_, ?_, hkeys, ?_⟩
  · intro pr hpr
    have hmem : pr ∈ ingredient_count dishes := by
      rw [analyze_ingredient_frequency] at hpr
      exact List.mem_mergeSort.mp hpr
    have hlk : (ingredient_count dishes).lookup pr.1 = some pr.2 :=
      lookup_eq_some_of_mem _ hnd pr.1 pr.2 (by simpa using hmem)
    have hg := foldl_bump_lookup_getD (ingredientNames dishes) [] pr.1
    rw [show (ingredientNames dishes).foldl bump [] = ingredient_count dishes from rfl,
        hlk] at hg
    simpa using hg
  · have hperm := List.mergeSort_perm (ingredient_count dishes)
      (fun x y => decide (y.2 ≤ x.2))
    have hsum : ((analyze_ingredient_frequency dishes).map Prod.snd).sum
        = ((ingredient_count dishes).map Prod.snd).sum :=
      (hperm.map Prod.snd).sum_eq
    rw [hsum]
    have h := foldl_bump_sum (ingredientNames dishes) []
    simpa [ingredient_count] using h
  · exact (List.sorted_mergeSort countDesc_trans countDesc_total _).imp
      fun h => of_decide_eq_true h
  · intro k
    refine filter_mergeSort_eq_filter _ countDesc_trans countDesc_total _ _ ?_
    intro a b ha hb
    have ha' := of_decide_eq_true ha
    have hb' := of_decide_eq_true hb
    simp [ha', hb']

/-- Witness for C5: on a one-dish catalog whose dish lists the ingredient
"主料" twice, the frequency analysis reports the pair ("主料", 2) and 2 is
indeed the number of occurrences. -/
theorem C5_ingredient_frequency_witness :
    2 = (ingredientNames
      [⟨⟨"菜", "主食类", 8, [], [⟨"主料", []⟩, ⟨"主料", []⟩]⟩, 0, 0, 0, 0⟩]).count "主料" := by
  have hml : analyze_ingredient_frequency
      [⟨⟨"菜", "主食类", 8, [], [⟨"主料", []⟩, ⟨"主料", []⟩]⟩, 0, 0, 0, 0⟩]
      = [("主料", 2)] := by
    show List.mergeSort [("主料", 2)] _ = [("主料", 2)]
    exact List.mergeSort_singleton _
  have h := (C5_ingredient_frequency
      [⟨⟨"菜", "主食类", 8, [], [⟨"主料", []⟩, ⟨"主料", []⟩]⟩, 0, 0, 0, 0⟩]).1
      ("主料", 2) (by rw [hml]; simp)
  simpa using h

/-- C10: on the empty catalog, `find_optimal_combination` (for any value of
its calorie-limit argument) and `analyze_ingredient_frequency` both return
the empty list without error. -/
theorem C10_empty_catalog :
    (∀ c : ℚ, find_optimal_combination [] c = []) ∧
    analyze_ingredient_frequency [] = [] := by
  constructor
  · intro c
    simp [find_optimal_combination, dishes_sorted]
  · show List.mergeSort [] _ = []
    simp

namespace DietNutritionAnalyzer

/-- The fixed category→name table of `_replace_main_ingredient_name`
(`src/index.py` lines 29-45), 15 entries. -/
def replacements : List (String × String) :=
  [("猪肉类", "猪肉"), ("鸡肉类", "鸡肉"), ("牛肉类", "牛肉"), ("羊肉类", "羊肉"),
   ("水产类", "鱼肉"), ("蔬菜类", "青菜"), ("豆制品类", "豆腐"), ("汤品类", "汤底"),
   ("主食类", "米饭"), ("饮品", "饮品基底"), ("小吃油炸", "油炸制品"),
   ("西式快餐", "鸡排"), ("台式便当", "便当主料"), ("风味快餐", "烤肉"),
   ("西式简餐", "芝士")]

/-- Line 46 of `src/index.py`: `default_name = replacements.get(cat, "未知食材")`. -/
def default_name (cat : String) : String :=
  (replacements.lookup cat).getD "未知食材"

/-- Method `_replace_main_ingredient_name` from `src/index.py` lines 26-51: every
ingredient named exactly "主料" gets the name looked up from the dish's
category (the in-place mutation of the Python loop becomes a map). -/
def replace_main_ingredient_name (dish : Dish) : Dish :=
  { dish with ingredients :=
      dish.ingredients.map fun ing =>
        if ing.name = "主料" then { ing with name := default_name dish.category }
        else ing }

theorem lookup_mem_values : ∀ (l : List (String × String)) (k v : String),
    l.lookup k = some v → v ∈ l.map Prod.snd := by
  intro l
  induction l with
  | nil => intro k v h; simp at h
  | cons hd tl ih =>
    obtain ⟨k0, v0⟩ := hd
    intro k v h
    rw [List.lookup_cons] at h
    cases hbk : (k == k0) with
    | true => simp [hbk] at h; simp [h]
    | false =>
      simp only [hbk] at h
      exact List.mem_cons_of_mem _ (ih k v h)

theorem default_name_ne (cat : String) : default_name cat ≠ "主料" := by
  unfold default_name
  cases h : replacements.lookup cat with
  | none => simp
  | some v =>
    have hv := lookup_mem_values replacements cat v h
    have hall : ∀ w ∈ replacements.map Prod.snd, w ≠ "主料" := by decide
    simpa using hall v hv

end DietNutritionAnalyzer

/-- C6: main-ingredient resolution renames exactly the ingredients whose
name is exactly "主料", to the table entry for the dish's category;
the table maps "猪肉类" to "猪肉"; a category absent from the table
resolves to the sentinel "未知食材" instead of failing; and running the
resolution twice equals running it once. -/
theorem C6_main_ingredient_resolution (d : Dish) :
    (∀ i : Nat, ((replace_main_ingredient_name d).ingredients[i]?).map (fun ing => ing.name)
        = (d.ingredients[i]?).map (fun ing =>
            if ing.name = "主料" then default_name d.category else ing.name)) ∧
    replacements.lookup "猪肉类" = some "猪肉" ∧
    (∀ cat : String, cat ∉ replacements.map Prod.fst → default_name cat = "未知食材") ∧
    replace_main_ingredient_name (replace_main_ingredient_name d)
      = replace_main_ingredient_name d := by
  refine ⟨?_, by decide, ?_, ?_⟩
  · intro i
    rw [replace_main_ingredient_name]
    simp only [List.getElem?_map]
    cases d.ingredients[i]? with
    | none => rfl
    | some ing =>
      by_cases h : ing.name = "主料" <;> simp [h]
  · intro cat hcat
    unfold default_name
    cases h : replacements.lookup cat with
    | none => rfl
    | some v =>
      exfalso
      have hs : (replacements.lookup cat).isSome := by rw [h]; rfl
      have h2 := List.lookup_isSome_iff.mp hs
      have : cat ∈ replacements.map Prod.fst := by
        obtain ⟨pr, hpr, hk⟩ := h2
        have hke : cat = pr.1 := by simpa using hk
        rw [hke]
        exact List.mem_map_of_mem Prod.fst hpr
      exact hcat this
  · unfold replace_main_ingredient_name
    simp only [List.map_map]
    congr 1
    apply List.map_congr_left
    intro ing _
    by_cases h : ing.name = "主料"
    · simp [Function.comp, h, default_name_ne d.category]
    · simp [Function.comp, h]

/-- Witness for C6: a category absent from the 15-entry table ("甜品类")
resolves to the sentinel "未知食材". -/
theorem C6_main_ingredient_resolution_witness :
    default_name "甜品类" = "未知食材" :=
  (C6_main_ingredient_resolution
      ⟨"回锅肉", "猪肉类", 8, [], [⟨"主料", []⟩]⟩).2.2.1 "甜品类" (by decide)

namespace DietNutritionAnalyzer

/-- Embeds `np.mean` on a nonempty list of rationals: sum divided by length. -/
def npMean (l : List ℚ) : ℚ := l.sum / (l.length : ℚ)

/-- Embeds `categories = list(set(dish['category'] for dish in self.dishes))` of
`src/index.py` line 240; Python's set order is unspecified, so only the
set of members matters — here rendered as `dedup`. -/
def categoriesOf (dishes : List ScoredDish) : List String :=
  (dishes.map (fun d => d.dish.category)).dedup

/-- The `cat_dishes` list of `src/index.py` line 242. -/
def cat_dishes (dishes : List ScoredDish) (category : String) : List ScoredDish :=
  dishes.filter (fun d => decide (d.dish.category = category))

/-- The per-category summary computed by `generate_recommendations`
(`src/index.py` lines 239-245): for each distinct category, the mean
`match_score` and the mean `popularity_score` of that category's dishes. -/
def category_summary (dishes : List ScoredDish) : List (String × ℚ × ℚ) :=
  (categoriesOf dishes).map fun category =>
    (category,
     npMean ((cat_dishes dishes category).map (fun d => d.match_score)),
     npMean ((cat_dishes dishes category).map (fun d => d.dish.popularity_score)))

end DietNutritionAnalyzer

/-- C7: the category summary covers every dish's category, and each
reported entry is the arithmetic mean of `match_score` and of
`popularity_score` over that category's dishes; on two dishes of one
category "A" with match scores 0.5 and 0.7 (popularity 5 and 7), the
summary is exactly `[("A", 0.6, 6)]`. -/
theorem C7_category_summary (dishes : List ScoredDish) :
    (∀ d ∈ dishes, d.dish.category ∈ categoriesOf dishes) ∧
    (∀ cat m p, (cat, m, p) ∈ category_summary dishes →
      m = ((cat_dishes dishes cat).map (fun d => d.match_score)).sum
            / ((cat_dishes dishes cat).length : ℚ) ∧
      p = ((cat_dishes dishes cat).map (fun d => d.dish.popularity_score)).sum
            / ((cat_dishes dishes cat).length : ℚ)) ∧
    category_summary
      [⟨⟨"d1", "A", 5, [], []⟩, 0, 0, 0, 0.5⟩, ⟨⟨"d2", "A", 7, [], []⟩, 0, 0, 0, 0.7⟩]
      = [("A", 0.6, 6)] := by
  refine ⟨?_, ?_, ?_⟩
  · intro d hd
    exact List.mem_dedup.mpr (List.mem_map_of_mem _ hd)
  · intro cat m p hmem
    rw [category_summary] at hmem
    obtain ⟨c, hc, heq⟩ := List.mem_map.mp hmem
    have h1 : c = cat := congrArg Prod.fst heq
    subst h1
    have h2 : npMean ((cat_dishes dishes c).map (fun d => d.match_score)) = m :=
      congrArg (fun x => x.2.1) heq
    have h3 : npMean ((cat_dishes dishes c).map (fun d => d.dish.popularity_score)) = p :=
      congrArg (fun x => x.2.2) heq
    constructor
    · rw [← h2, npMean, List.length_map]
    · rw [← h3, npMean, List.length_map]
  · show List.map _ (List.dedup _) = _
    norm_num [category_summary, categoriesOf, cat_dishes, npMean, List.dedup]

/-- Witness for C7: applying the mean characterization to the entry
`("A", 0.6, 6)` of the two-dish example summary. -/
theorem C7_category_summary_witness :
    (0.6 : ℚ) = ((cat_dishes
        [⟨⟨"d1", "A", 5, [], []⟩, 0, 0, 0, 0.5⟩, ⟨⟨"d2", "A", 7, [], []⟩, 0, 0, 0, 0.7⟩]
        "A").map (fun d => d.match_score)).sum
      / ((cat_dishes
        [⟨⟨"d1", "A", 5, [], []⟩, 0, 0, 0, 0.5⟩, ⟨⟨"d2", "A", 7, [], []⟩, 0, 0, 0, 0.7⟩]
        "A").length : ℚ) := by
  have h := (C7_category_summary
      [⟨⟨"d1", "A", 5, [], []⟩, 0, 0, 0, 0.5⟩, ⟨⟨"d2", "A", 7, [], []⟩, 0, 0, 0, 0.7⟩]).2.1
      "A" 0.6 6 (by
        rw [(C7_category_summary
          [⟨⟨"d1", "A", 5, [], []⟩, 0, 0, 0, 0.5⟩,
           ⟨⟨"d2", "A", 7, [], []⟩, 0, 0, 0, 0.7⟩]).2.2]
        simp)
  exact h.1

namespace DietNutritionAnalyzer

/-- Arithmetic mean of a real sequence. -/
noncomputable def meanR (l : List ℝ) : ℝ := l.sum / (l.length : ℝ)

/-- Sum of products of deviations from the means,
`Σ (xᵢ - x̄)(yᵢ - ȳ)` over the zipped sequences. -/
noncomputable def devSum (x y : List ℝ) : ℝ :=
  (List.zipWith (fun a b => (a - meanR x) * (b - meanR y)) x y).sum

/-- Embeds `np.cov`'s sample covariance (denominator `N - 1`, numpy's default),
the entries of the covariance matrix `np.corrcoef` normalizes. -/
noncomputable def sampleCov (x y : List ℝ) : ℝ := devSum x y / ((x.length : ℝ) - 1)

/-- Embeds `np.corrcoef(x, y)[0, 1]`: the covariance divided by the square roots
of the two diagonal (variance) entries of the covariance matrix. -/
noncomputable def corrcoef (x y : List ℝ) : ℝ :=
  sampleCov x y / (Real.sqrt (sampleCov x x) * Real.sqrt (sampleCov y y))

/-- Function `analyze_correlation` from `src/index.py` lines 75-81: the `np.corrcoef`
entry for the per-dish `nutrition_score` and `popularity_score` sequences. -/
noncomputable def analyze_correlation (dishes : List ScoredDish) : ℝ :=
  corrcoef (dishes.map (fun d => (d.nutrition_score : ℝ)))
           (dishes.map (fun d => (d.dish.popularity_score : ℝ)))

/-- Modelled from the spec's words: the Pearson correlation coefficient
`Σ(xᵢ-x̄)(yᵢ-ȳ) / (√Σ(xᵢ-x̄)² · √Σ(yᵢ-ȳ)²)`, with no `N-1` factors. -/
noncomputable def pearson (x y : List ℝ) : ℝ :=
  devSum x y / (Real.sqrt (devSum x x) * Real.sqrt (devSum y y))

theorem devSum_self_nonneg (x : List ℝ) : 0 ≤ devSum x x := by
  rw [devSum, List.zipWith_same]
  apply List.sum_nonneg
  intro z hz
  obtain ⟨a, _, ha⟩ := List.mem_map.mp hz
  rw [← ha]
  exact mul_self_nonneg _

end DietNutritionAnalyzer

/-- C8: on a catalog of at least 2 dishes whose `nutrition_score` and
`popularity_score` sequences both have non-zero (sample) variance,
`analyze_correlation` returns exactly the Pearson correlation coefficient
of the two sequences: the `N-1` factors of numpy's covariance matrix
cancel against the normalization. -/
theorem C8_correlation_is_pearson (dishes : List ScoredDish)
    (h2 : 2 ≤ dishes.length)
    (hvx : sampleCov (dishes.map (fun d => (d.nutrition_score : ℝ)))
             (dishes.map (fun d => (d.nutrition_score : ℝ))) ≠ 0)
    (hvy : sampleCov (dishes.map (fun d => (d.dish.popularity_score : ℝ)))
             (dishes.map (fun d => (d.dish.popularity_score : ℝ))) ≠ 0) :
    analyze_correlation dishes
      = pearson (dishes.map (fun d => (d.nutrition_score : ℝ)))
                (dishes.map (fun d => (d.dish.popularity_score : ℝ))) := by
  set x := dishes.map (fun d => (d.nutrition_score : ℝ)) with hxdef
  set y := dishes.map (fun d => (d.dish.popularity_score : ℝ)) with hydef
  have hxlen : (x.length : ℝ) = (dishes.length : ℝ) := by rw [hxdef, List.length_map]
  have hylen : (y.length : ℝ) = (dishes.length : ℝ) := by rw [hydef, List.length_map]
  set c : ℝ := (dishes.length : ℝ) - 1 with hcdef
  have hc : 0 < c := by
    have : (2 : ℝ) ≤ (dishes.length : ℝ) := by exact_mod_cast h2
    rw [hcdef]; linarith
  have hcovx : sampleCov x x = devSum x x / c := by rw [sampleCov, hxlen]
  have hcovy : sampleCov y y = devSum y y / c := by rw [sampleCov, hylen]
  have hcovxy : sampleCov x y = devSum x y / c := by rw [sampleCov, hxlen]
  have hA0 : 0 ≤ devSum x x := devSum_self_nonneg x
  have hB0 : 0 ≤ devSum y y := devSum_self_nonneg y
  have hA : devSum x x ≠ 0 := by
    intro h; exact hvx (by rw [hcovx, h, zero_div])
  have hB : devSum y y ≠ 0 := by
    intro h; exact hvy (by rw [hcovy, h, zero_div])
  have hsA : 0 < Real.sqrt (devSum x x) :=
    Real.sqrt_pos.mpr (lt_of_le_of_ne hA0 (Ne.symm hA))
  have hsB : 0 < Real.sqrt (devSum y y) :=
    Real.sqrt_pos.mpr (lt_of_le_of_ne hB0 (Ne.symm hB))
  have hsc : 0 < Real.sqrt c := Real.sqrt_pos.mpr hc
  rw [analyze_correlation, corrcoef, pearson, hcovx, hcovy, hcovxy,
      Real.sqrt_div hA0 c, Real.sqrt_div hB0 c]
  rw [div_mul_div_comm, Real.mul_self_sqrt hc.le]
  have hc0 : c ≠ 0 := hc.ne'
  have hAB : Real.sqrt (devSum x x) * Real.sqrt (devSum y y) ≠ 0 :=
    (mul_pos hsA hsB).ne'
  field_simp

/-- Witness for C8: two dishes with nutrition scores 0, 1 and popularity
scores 0, 1 — both sequences have sample variance 1/2 ≠ 0. -/
theorem C8_correlation_is_pearson_witness :
    analyze_correlation
        [⟨⟨"a", "A", 0, [], []⟩, 0, 0, 0, 0⟩, ⟨⟨"b", "A", 1, [], []⟩, 0, 1, 0, 0⟩]
      = pearson
        ([⟨⟨"a", "A", 0, [], []⟩, 0, 0, 0, 0⟩,
          (⟨⟨"b", "A", 1, [], []⟩, 0, 1, 0, 0⟩ : ScoredDish)].map
            (fun d => (d.nutrition_score : ℝ)))
        ([⟨⟨"a", "A", 0, [], []⟩, 0, 0, 0, 0⟩,
          (⟨⟨"b", "A", 1, [], []⟩, 0, 1, 0, 0⟩ : ScoredDish)].map
            (fun d => (d.dish.popularity_score : ℝ))) := by
  refine C8_correlation_is_pearson _ (by norm_num) ?_ ?_
  · norm_num [sampleCov, devSum, meanR]
  · norm_num [sampleCov, devSum, meanR]

namespace DietNutritionAnalyzer

theorem calculate_cd_ndi_eq_none_iff (nd : List (String × ℚ)) :
    calculate_cd_ndi nd = none ↔ ¬ hasAllFields nd := by
  unfold calculate_cd_ndi hasAllFields
  cases h1 : nd.lookup "protein" <;>
  cases h2 : nd.lookup "dietaryFiber" <;>
  cases h3 : nd.lookup "saturatedFat" <;>
  cases h4 : nd.lookup "sodium" <;>
  cases h5 : nd.lookup "addedSugar" <;>
    simp [h1, h2, h3, h4, h5]

theorem scoreDish_of_hasAllFields (d : Dish) (h : hasAllFields d.total_nutrition) :
    ∃ s : ScoredDish, scoreDish d = some s ∧ s.dish = d := by
  cases hcd : calculate_cd_ndi d.total_nutrition with
  | none => exact absurd h ((calculate_cd_ndi_eq_none_iff _).mp hcd)
  | some c =>
    refine ⟨⟨d, c, c, d.popularity_score / 10.0,
      0.6 * (c / 100) + 0.4 * (d.popularity_score / 10.0)⟩, ?_, rfl⟩
    simp [scoreDish, hcd]

end DietNutritionAnalyzer

/-- C9: scoring fails (returns `none`, Python's `KeyError`) as soon as one
dish's `total_nutrition` lacks one of the five required fields — no default
is substituted and no partial result is produced; when every dish carries
all five fields, scoring succeeds and attaches the derived fields to every
dish of the catalog, in order. -/
theorem C9_missing_field_is_error (dishes : List Dish) :
    ((∃ d ∈ dishes,
        d.total_nutrition.lookup "protein" = none ∨
        d.total_nutrition.lookup "dietaryFiber" = none ∨
        d.total_nutrition.lookup "saturatedFat" = none ∨
        d.total_nutrition.lookup "sodium" = none ∨
        d.total_nutrition.lookup "addedSugar" = none) →
      calculate_dish_scores dishes = none) ∧
    ((∀ d ∈ dishes, hasAllFields d.total_nutrition) →
      ∃ out : List ScoredDish, calculate_dish_scores dishes = some out ∧
        out.length = dishes.length ∧
        out.map (fun s => s.dish) = dishes) := by
  constructor
  · intro ⟨d, hd, hmiss⟩
    induction dishes with
    | nil => simp at hd
    | cons d0 rest ih =>
      rcases List.mem_cons.mp hd with h0 | h0
      · subst h0
        have hnone : calculate_cd_ndi d.total_nutrition = none := by
          rw [calculate_cd_ndi_eq_none_iff]
          intro hall
          obtain ⟨hp, hf, hsf, hna, hsu⟩ := hall
          rcases hmiss with h | h | h | h | h <;> simp [h] at hp hf hsf hna hsu
        have hsd : scoreDish d = none := by
          unfold scoreDish
          rw [hnone]
          rfl
        rw [calculate_dish_scores, hsd]
        rfl
      · have hrest : calculate_dish_scores rest = none := ih h0
        rw [calculate_dish_scores, hrest]
        cases scoreDish d0 <;> rfl
  · intro hall
    induction dishes with
    | nil => exact ⟨[], rfl, rfl, rfl⟩
    | cons d0 rest ih =>
      obtain ⟨s, hs, hsd⟩ :=
        scoreDish_of_hasAllFields d0 (hall d0 (List.mem_cons_self d0 rest))
      obtain ⟨out, hout, hlen, hmap⟩ :=
        ih fun d hd => hall d (List.mem_cons_of_mem d0 hd)
      refine ⟨s :: out, ?_, by simp [hlen], by simp [hmap, hsd]⟩
      rw [calculate_dish_scores, hs, hout]
      rfl

/-- Witness for C9: a dish missing "sodium" makes scoring fail; the spec §8
example dish, which has all five fields, is scored successfully. -/
theorem C9_missing_field_is_error_witness :
    calculate_dish_scores
      [{ name := "坏菜", category := "主食类", popularity_score := 5,
         total_nutrition :=
           [("protein", 1), ("dietaryFiber", 1), ("saturatedFat", 1), ("addedSugar", 1)],
         ingredients := [] }] = none ∧
    ∃ out : List ScoredDish,
      calculate_dish_scores
        [{ name := "示例菜", category := "主食类", popularity_score := 8,
           total_nutrition :=
             [("protein", 20), ("dietaryFiber", 5), ("saturatedFat", 2),
              ("sodium", 300), ("addedSugar", 1)],
           ingredients := [] }] = some out ∧
      out.length = 1 ∧
      out.map (fun s => s.dish) =
        [{ name := "示例菜", category := "主食类", popularity_score := 8,
           total_nutrition :=
             [("protein", 20), ("dietaryFiber", 5), ("saturatedFat", 2),
              ("sodium", 300), ("addedSugar", 1)],
           ingredients := [] }] := by
  constructor
  · exact (C9_missing_field_is_error _).1
      ⟨{ name := "坏菜", category := "主食类", popularity_score := 5,
         total_nutrition :=
           [("protein", 1), ("dietaryFiber", 1), ("saturatedFat", 1), ("addedSugar", 1)],
         ingredients := [] }, by simp, by decide⟩
  · exact (C9_missing_field_is_error _).2 (by decide)
